import Mathlib

/-!
Verification development for the agent-bench task execution core.

The embedding models:
- the `Verifier` (`src/verifier.ts`): command tokenization and the promise
  returned by `Verifier.verify`, rendered as a state machine folded over the
  trace of runtime events (stream data, process close, process error, the
  explicit graceful-kill timer);
- the `OpencodeAgent` session adapter (`src/agents/opencode.ts`): the metrics
  accumulator folded over the progress-event stream, prompt/stream composition
  in `runTask`, and the try/finally server cleanup in `execute`;
- the result collector (`src/collectors/csv.ts`): `collectResults` and the
  JavaScript method-lookup semantics its per-file loop depends on.

JavaScript numbers that hold monetary cost are modelled as rationals; wall-clock
time is modelled as a logical clock (one tick per delivered event).
-/

namespace AgentBench

/-- From `src/utils/errors.ts`: `VerificationError` (only the message matters
to the modelled behavior). -/
structure VerificationError where
  message : String
deriving DecidableEq

/-- From `src/utils/errors.ts`: `AgentError`. -/
structure AgentError where
  message : String
deriving DecidableEq

/-- JavaScript stringification of an `AgentError` as it appears inside a
template literal: `Error.prototype.toString` yields `name + ": " + message`,
and `errors.ts` sets `this.name = 'AgentError'`. -/
def agentErrorToString (e : AgentError) : String :=
  "AgentError: " ++ e.message

/-- Modelled from the spec: the Task permission spec
`{mode enum, read/write/bash/web-fetch booleans}` (§3 DATA MODEL);
`src/core/task.ts` itself is not among the provided sources, only its
consumers are. -/
structure Permissions where
  mode : String
  read : Bool
  write : Bool
  bash : Bool
  web_fetch : Bool
deriving DecidableEq

/-- Modelled from the spec: the slice of the Task record the modelled
components consume — prompt, permission spec and verification spec
(command string, timeout in seconds). -/
structure Task where
  id : String
  prompt : String
  permissions : Permissions
  verificationCommand : String
  verificationTimeout : Nat
deriving DecidableEq

/-! ## Verifier (`src/verifier.ts`)

`Verifier.verify` first tokenizes `task.verification.command` with the regex
`/(?:[^\s"]+|"[^"]*")+/g`, throws `VerificationError('Empty verification
command')` on an empty token list, and otherwise spawns the program inside a
`new Promise` whose handlers are folded below. -/

/-- The character class `\s` of the tokenizing regex, restricted to the ASCII
whitespace characters (the only ones that occur in verification commands). -/
def isJsSpace (c : Char) : Bool :=
  c = ' ' || c = '\t' || c = '\n' || c = '\r' || c = '\x0b' || c = '\x0c'

/-- Operational rendering of the global regex match
`command.match(/(?:[^\s"]+|"[^"]*")+/g)`. A match is a maximal gluing of the
two units: runs `[^\s"]+` and quoted segments `"[^"]*"`. The quoted unit
requires a closing quote, hence the `rest.contains` lookahead; a position
where neither unit matches (whitespace, or a `"` with no later closing `"`)
ends the current match and is skipped by the global scan, exactly as the
regex engine advances past a failing start position.

Arguments: remaining input, characters of the match being built, and whether
the scan is inside a quoted segment. -/
def scanAux : List Char → List Char → Bool → List String
  | [], cur, _ => if cur.isEmpty then [] else [String.mk cur]
  | c :: rest, cur, true =>
      if c = '"' then scanAux rest (cur ++ ['"']) false
      else scanAux rest (cur ++ [c]) true
  | c :: rest, cur, false =>
      if c = '"' then
        if rest.contains '"' then scanAux rest (cur ++ ['"']) true
        else if cur.isEmpty then scanAux rest [] false
        else String.mk cur :: scanAux rest [] false
      else if isJsSpace c then
        if cur.isEmpty then scanAux rest [] false
        else String.mk cur :: scanAux rest [] false
      else scanAux rest (cur ++ [c]) false

/-- `task.verification.command.match(/(?:[^\s"]+|"[^"]*")+/g) || []`. -/
def parseCommandParts (command : String) : List String :=
  scanAux command.data [] false

/-- `part.replace(/"/g, '')`: every double quote removed. -/
def stripQuotes (s : String) : String :=
  String.mk (s.data.filter (fun c => c != '"'))

/-- The `(program, args)` pair the Verifier hands to `spawn`:
`commandParts[0].replace(/"/g,'')` and the remaining parts likewise
stripped; `none` when the token list is empty. -/
def parsedCommand (command : String) : Option (String × List String) :=
  match parseCommandParts command with
  | [] => none
  | p :: rest => some (stripQuotes p, rest.map stripQuotes)

/-- From `src/verifier.ts`: `VerificationResult`. `durationSecs` is the
logical clock value at settlement (wall-clock time is outside the
embedding). -/
structure VerificationResult where
  passed : Bool
  exitCode : Option Int
  stdout : String
  stderr : String
  durationSecs : Nat
deriving DecidableEq

/-- Runtime events delivered to the handlers installed by `verify`'s promise
executor:
- `dataOut` / `dataErr` — chunks on the child's stdout/stderr;
- `close code` — the child's `close` event (`code` is `null` when the child
  was killed by a signal rather than exiting);
- `errEvent errCode msg` — the child's `error` event, carrying the OS error
  code and message;
- `internalTimeout` — the deadline passed to `spawn` itself fires and kills
  the child (it settles nothing; the executor observes it only through a
  later `close`);
- `timerFire` — the explicit `setTimeout` in `verify` fires. -/
inductive VEvent where
  | dataOut (s : String)
  | dataErr (s : String)
  | close (code : Option Int)
  | errEvent (errCode : String) (msg : String)
  | internalTimeout
  | timerFire
deriving DecidableEq

/-- The message of the timeout `VerificationError`:
`` `Verification command timed out after ${task.verification.timeout} seconds` ``. -/
def timeoutMessage (timeoutSecs : Nat) : String :=
  "Verification command timed out after " ++ toString timeoutSecs ++ " seconds"

instance {ε α : Type} [DecidableEq ε] [DecidableEq α] : DecidableEq (Except ε α) :=
  fun a b =>
    match a, b with
    | Except.ok a, Except.ok b =>
        if h : a = b then isTrue (congrArg Except.ok h)
        else isFalse (fun hc => h (Except.ok.inj hc))
    | Except.error a, Except.error b =>
        if h : a = b then isTrue (congrArg Except.error h)
        else isFalse (fun hc => h (Except.error.inj hc))
    | Except.ok _, Except.error _ => isFalse (fun hc => Except.noConfusion hc)
    | Except.error _, Except.ok _ => isFalse (fun hc => Except.noConfusion hc)

/-- State of `verify`'s promise executor: the one-shot settlement slot, the
count of `resolve`/`reject` calls made (JavaScript ignores every call after
the first, but the calls still happen), whether the explicit `setTimeout` is
still pending, whether `proc.kill` was issued, the two output buffers, and
the logical clock. -/
structure PromiseState where
  settled : Option (Except VerificationError VerificationResult)
  settleAttempts : Nat
  timerArmed : Bool
  killed : Bool
  stdout : String
  stderr : String
  clock : Nat
deriving DecidableEq

/-- Executor state right after `spawn` returns: nothing settled, the explicit
timer armed, buffers empty. -/
def initPromiseState : PromiseState :=
  { settled := none, settleAttempts := 0, timerArmed := true, killed := false
    stdout := "", stderr := "", clock := 0 }

/-- One `resolve`/`reject` call: always counted, but it settles the promise
only when nothing has settled before (JavaScript promise semantics). -/
def attemptSettle (v : Except VerificationError VerificationResult)
    (st : PromiseState) : PromiseState :=
  { st with
    settleAttempts := st.settleAttempts + 1
    settled := match st.settled with
               | some x => some x
               | none => some v }

/-- The handlers installed by `verify`, folded one event at a time:
- `data` handlers append to the buffers;
- the first `close` handler calls
  `resolve({passed: code === 0, exitCode: code, stdout, stderr, durationSecs})`,
  and the second `close` handler calls `clearTimeout(timeoutId)`;
- the `error` handler rejects with the timeout message on `ETIMEDOUT` and
  with `Failed to execute verification command: <msg>` otherwise;
- `spawn`'s own deadline only kills the child;
- the explicit timer kills the child with SIGTERM and rejects with the
  timeout message. -/
def vstep (timeoutSecs : Nat) (st : PromiseState) (ev : VEvent) : PromiseState :=
  let st := { st with clock := st.clock + 1 }
  match ev with
  | .dataOut s => { st with stdout := st.stdout ++ s }
  | .dataErr s => { st with stderr := st.stderr ++ s }
  | .close code =>
      let st := attemptSettle
        (Except.ok
          { passed := code == some 0
            exitCode := code
            stdout := st.stdout
            stderr := st.stderr
            durationSecs := st.clock }) st
      { st with timerArmed := false }
  | .errEvent errCode msg =>
      if errCode = "ETIMEDOUT" then
        attemptSettle (Except.error ⟨timeoutMessage timeoutSecs⟩) st
      else
        attemptSettle
          (Except.error ⟨"Failed to execute verification command: " ++ msg⟩) st
  | .internalTimeout => { st with killed := true }
  | .timerFire =>
      attemptSettle (Except.error ⟨timeoutMessage timeoutSecs⟩)
        { st with killed := true, timerArmed := false }

/-- The promise executor applied to a whole event trace. -/
def runVerify (timeoutSecs : Nat) (events : List VEvent) : PromiseState :=
  events.foldl (vstep timeoutSecs) initPromiseState

/-- Events whose handler calls `resolve` or `reject`. -/
def isSettling : VEvent → Bool
  | .close _ => true
  | .errEvent _ _ => true
  | .timerFire => true
  | _ => false

/-- Runtime admissibility of an event trace, tracking whether the explicit
timer is still armed and whether `close` has fired: a cleared or fired timer
cannot fire (again), `close` fires at most once, and `close` itself disarms
the timer via the `clearTimeout` handler. -/
def admissibleFrom : Bool → Bool → List VEvent → Bool
  | _, _, [] => true
  | armed, closeFired, ev :: rest =>
      match ev with
      | .timerFire => armed && admissibleFrom false closeFired rest
      | .close _ => !closeFired && admissibleFrom false true rest
      | _ => admissibleFrom armed closeFired rest

/-- Admissibility from the state right after `spawn`. -/
def admissible (events : List VEvent) : Bool :=
  admissibleFrom true false events

/-- `Verifier.verify`: tokenize the command; an empty token list is a
`VerificationError` thrown before `spawn` (second component: whether a child
process was spawned); otherwise the outcome is the promise's settlement over
the event trace. -/
def verify (command : String) (timeoutSecs : Nat) (events : List VEvent) :
    Option (Except VerificationError VerificationResult) × Bool :=
  if parseCommandParts command = [] then
    (some (Except.error ⟨"Empty verification command"⟩), false)
  else
    ((runVerify timeoutSecs events).settled, true)

/-! ## OpenCode session adapter (`src/agents/opencode.ts`) -/

/-- From `src/agents/types.ts` consumers: provider/model identifier pair. -/
structure ModelConfig where
  providerID : String
  modelID : String
deriving DecidableEq

/-- From `src/agents/opencode.ts`: the `Metrics` accumulator. -/
structure Metrics where
  iterations : Nat
  inputTokens : Nat
  outputTokens : Nat
  cost : Rat
  output : List String
deriving DecidableEq

/-- The accumulator `runTask` creates before subscribing. -/
def initMetrics : Metrics :=
  { iterations := 0, inputTokens := 0, outputTokens := 0, cost := 0, output := [] }

/-- `msg.tokens` of a `message.updated` event: optional input/output token
counts (`msg.tokens.input || 0` defaults a missing field to zero). -/
structure TokenCounts where
  input : Option Nat
  output : Option Nat
deriving DecidableEq

/-- `event.properties.info` of a `message.updated` event: the fields
`handleMessageUpdate` reads. -/
structure MsgInfo where
  role : String
  tokens : Option TokenCounts
  cost : Option Rat
deriving DecidableEq

/-- One element of `event.properties.parts`. -/
structure MsgPart where
  type : String
  text : Option String
deriving DecidableEq

/-- From `src/agents/types.ts`: `AgentResult`. -/
structure AgentResult where
  success : Bool
  output : String
  iterations : Nat
  tokensUsed : Nat
  cost : Rat
  durationSecs : Nat
  agentVersion : String
  modelName : String
deriving DecidableEq

/-- Progress events of the SSE stream, as dispatched by `captureMetrics`'s
`switch (event.type)`: `message.updated`, `session.idle`, `session.error`
(optional `properties.message`), and every other event type. -/
inductive OEvent where
  | messageUpdated (info : Option MsgInfo) (parts : List MsgPart)
  | sessionIdle
  | sessionError (message : Option String)
  | otherEvent (eventType : String)
deriving DecidableEq

/-- Events that terminate the `for await` loop of `captureMetrics`. -/
def isTerminalEvent : OEvent → Bool
  | .sessionIdle => true
  | .sessionError _ => true
  | _ => false

/-- `event.properties?.message || 'Unknown error'` — a missing or empty
(falsy) message becomes `'Unknown error'`. -/
def sessionErrorMessage : Option String → String
  | some s => if s = "" then "Unknown error" else s
  | none => "Unknown error"

/-- `if (part.type === 'text' && part.text)`: the fragment a part contributes
to `metrics.output`, if any (an empty string is falsy and contributes
nothing). -/
def partText (p : MsgPart) : Option String :=
  if p.type = "text" then
    match p.text with
    | some s => if s = "" then none else some s
    | none => none
  else none

/-- `msg.tokens.input || 0` guarded by `if (msg.tokens)`. -/
def reportedInput (msg : MsgInfo) : Nat :=
  match msg.tokens with
  | some t => t.input.getD 0
  | none => 0

/-- `msg.tokens.output || 0` guarded by `if (msg.tokens)`. -/
def reportedOutput (msg : MsgInfo) : Nat :=
  match msg.tokens with
  | some t => t.output.getD 0
  | none => 0

/-- The cost delta a `message.updated` event reports (zero when `msg.cost`
is absent). -/
def reportedCost (msg : MsgInfo) : Rat :=
  match msg.cost with
  | some c => c
  | none => 0

/-- `handleMessageUpdate`: when `msg && msg.role === 'assistant'`, count one
iteration, add the token deltas (`if (msg.tokens)`), add the cost
(`if (msg.cost)` — a zero cost is falsy and skips the addition, which adds
nothing either way), and push the text of each `text` part with truthy
`part.text`; otherwise leave the accumulator unchanged. -/
def handleMessageUpdate (info : Option MsgInfo) (parts : List MsgPart)
    (m : Metrics) : Metrics :=
  match info with
  | none => m
  | some msg =>
      if msg.role = "assistant" then
        { iterations := m.iterations + 1
          inputTokens := m.inputTokens +
            (match msg.tokens with
             | some t => t.input.getD 0
             | none => 0)
          outputTokens := m.outputTokens +
            (match msg.tokens with
             | some t => t.output.getD 0
             | none => 0)
          cost :=
            match msg.cost with
            | some c => if c = 0 then m.cost else m.cost + c
            | none => m.cost
          output := m.output ++ parts.filterMap partText }
      else m

/-- `captureMetrics`: fold the event stream in arrival order.
`message.updated` goes through `handleMessageUpdate`; `session.idle` returns
normally; `session.error` throws `AgentError('Session error: ' + msg)`;
every other event type is ignored; end-of-stream without a terminal event
returns normally with whatever was accumulated. -/
def captureMetrics : List OEvent → Metrics → Except AgentError Metrics
  | [], m => Except.ok m
  | .messageUpdated info parts :: rest, m =>
      captureMetrics rest (handleMessageUpdate info parts m)
  | .sessionIdle :: _, m => Except.ok m
  | .sessionError msg :: _, _ =>
      Except.error ⟨"Session error: " ++ sessionErrorMessage msg⟩
  | .otherEvent _ :: rest, m => captureMetrics rest m

/-- The `AgentResult` `runTask` builds on normal completion:
`success: true`, fragments joined with newlines, totals copied from the
accumulator. -/
def mkAgentResult (m : Metrics) (cfg : ModelConfig) (durationSecs : Nat) :
    AgentResult :=
  { success := true
    output := String.intercalate "\n" m.output
    iterations := m.iterations
    tokensUsed := m.inputTokens + m.outputTokens
    cost := m.cost
    durationSecs := durationSecs
    agentVersion := "@opencode-ai/sdk@1.0.166"
    modelName := cfg.providerID ++ "/" ++ cfg.modelID }

/-- `runTask`: the prompt submission and the event-stream fold run inside one
`try` whose `catch` rethrows `AgentError(\x7bOpenCode execution failed:
$\x7berror\x7d\x7d)`. `promptError` is the stringified rejection of
`client.session.prompt`, when it rejects; otherwise the outcome is the fold
of the stream, with a stream `AgentError` stringified by
`Error.prototype.toString` inside the wrapper message. -/
def runTask (cfg : ModelConfig) (promptError : Option String)
    (events : List OEvent) (durationSecs : Nat) :
    Except AgentError AgentResult :=
  match promptError with
  | some e => Except.error ⟨"OpenCode execution failed: " ++ e⟩
  | none =>
      match captureMetrics events initMetrics with
      | Except.error e =>
          Except.error ⟨"OpenCode execution failed: " ++ agentErrorToString e⟩
      | Except.ok m => Except.ok (mkAgentResult m cfg durationSecs)

/-- `selectAgentType`: `'plan'` when neither write nor bash permission is
granted, `'build'` otherwise. -/
def selectAgentType (task : Task) : String :=
  if !task.permissions.write && !task.permissions.bash then "plan" else "build"

/-- Observable actions of `execute`, in order. -/
inductive ExecAction where
  | serverCreate
  | taskRun
  | serverClose
deriving DecidableEq

/-- `execute`: after `createOpencode` succeeds, `runTask` runs inside
`try { return await this.runTask(...) } finally { ... await server.close() ... }`;
the `finally` block runs on the return path and on the throw path alike, and
a failure of `server.close()` itself (`closeFails`) is caught and logged
inside the `finally`, leaving the outcome untouched. The first component is
the ordered action log, the second the outcome `execute` returns or
re-raises. -/
def execute (cfg : ModelConfig) (promptError : Option String)
    (events : List OEvent) (durationSecs : Nat) (_closeFails : Bool) :
    List ExecAction × Except AgentError AgentResult :=
  let body := runTask cfg promptError events durationSecs
  ([ExecAction.serverCreate, ExecAction.taskRun, ExecAction.serverClose], body)

/-! ## Result collector (`src/collectors/csv.ts`) -/

/-- Modelled from the spec: the Benchmark Result record (§3 DATA MODEL;
`src/evaluator/results.ts` is not among the provided sources). Only
`timestamp` is inspected by `collectResults`'s final sort. -/
structure BenchmarkResult where
  task_id : String
  agent : String
  agent_version : Option String
  model_name : Option String
  timestamp : String
  success : Bool
  score : Nat
  iterations : Nat
  duration_secs : Rat
  tokens_used : Option Nat
  error : Option String
deriving DecidableEq

/-- The method-lookup table of a JavaScript array of results: JavaScript
arrays expose `push` as their appending mutator; looking up any other
property — in particular `append` — yields `undefined`, and calling it
throws a `TypeError`. -/
def jsArrayMethod (name : String) :
    Option (List BenchmarkResult → BenchmarkResult → List BenchmarkResult) :=
  if name = "push" then some (fun l x => l ++ [x]) else none

/-- The body of `collectResults`'s per-file loop: a failed `loadResult` is
caught and logged; a successful load calls `results.append(result)`, whose
lookup yields `undefined`, so the call throws a `TypeError` that the same
`catch` block swallows (logging the file as failed to load). Each file is a
name paired with the outcome of parsing its contents. -/
def collectStep (acc : List BenchmarkResult)
    (file : String × Except String BenchmarkResult) : List BenchmarkResult :=
  match file.2 with
  | Except.error _ => acc
  | Except.ok r =>
      match jsArrayMethod "append" with
      | some app => app acc r
      | none => acc

/-- Insertion by `timestamp.localeCompare` order. -/
def insertByTimestamp (x : BenchmarkResult) :
    List BenchmarkResult → List BenchmarkResult
  | [] => [x]
  | y :: rest =>
      if x.timestamp ≤ y.timestamp then x :: y :: rest
      else y :: insertByTimestamp x rest

/-- `results.sort((a, b) => a.timestamp.localeCompare(b.timestamp))`. -/
def sortByTimestamp (l : List BenchmarkResult) : List BenchmarkResult :=
  l.foldr insertByTimestamp []

/-- `collectResults`: filter directory entries to `*.json` files not starting
with `suite_`, fold the per-file loop over them starting from the empty
array, and sort by timestamp. -/
def collectResults (files : List (String × Except String BenchmarkResult)) :
    List BenchmarkResult :=
  let jsonFiles := files.filter
    (fun f => f.1.endsWith ".json" && !(f.1.startsWith "suite_"))
  sortByTimestamp (jsonFiles.foldl collectStep [])

/-! ## Verifier lemmas and claim theorems -/

lemma vstep_preserves_settled (t : Nat) (st : PromiseState) (ev : VEvent)
    (x : Except VerificationError VerificationResult) (h : st.settled = some x) :
    (vstep t st ev).settled = some x := by
  cases ev <;> simp [vstep, attemptSettle, h]

lemma foldl_preserves_settled (t : Nat) (events : List VEvent) :
    ∀ (st : PromiseState) (x : Except VerificationError VerificationResult),
      st.settled = some x → (events.foldl (vstep t) st).settled = some x := by
  induction events with
  | nil => intro st x h; simpa using h
  | cons e rest ih =>
      intro st x h
      exact ih _ _ (vstep_preserves_settled t st e x h)

lemma vstep_not_settling (t : Nat) (st : PromiseState) (ev : VEvent)
    (h : isSettling ev = false) : (vstep t st ev).settled = st.settled := by
  cases ev <;> simp_all [vstep, isSettling]

lemma settles_timeout_first (t : Nat) :
    ∀ (events : List VEvent) (st : PromiseState), st.settled = none →
      (events.find? isSettling = some VEvent.timerFire ∨
        ∃ m, events.find? isSettling = some (VEvent.errEvent "ETIMEDOUT" m)) →
      (events.foldl (vstep t) st).settled =
        some (Except.error ⟨timeoutMessage t⟩) := by
  intro events
  induction events with
  | nil =>
      intro st _ h
      rcases h with h | ⟨m, h⟩ <;> simp [List.find?] at h
  | cons e rest ih =>
      intro st hst h
      by_cases hs : isSettling e = true
      · rw [List.find?_cons_of_pos _ hs] at h
        rcases h with h | ⟨m, h⟩
        · cases Option.some.inj h
          rw [List.foldl_cons]
          refine foldl_preserves_settled t rest _ _ ?_
          simp [vstep, attemptSettle, hst]
        · cases Option.some.inj h
          rw [List.foldl_cons]
          refine foldl_preserves_settled t rest _ _ ?_
          simp [vstep, attemptSettle, hst]
      · have hs' : isSettling e = false := by
          revert hs; cases isSettling e <;> simp
        rw [List.find?_cons_of_neg _ (by simp [hs'])] at h
        rw [List.foldl_cons]
        exact ih _ (by rw [vstep_not_settling t st e hs']; exact hst) h

lemma settles_close_first (t : Nat) (code : Option Int) :
    ∀ (events : List VEvent) (st : PromiseState), st.settled = none →
      events.find? isSettling = some (VEvent.close code) →
      ∃ r : VerificationResult,
        (events.foldl (vstep t) st).settled = some (Except.ok r) ∧
        r.exitCode = code ∧ r.passed = (code == some 0) := by
  intro events
  induction events with
  | nil => intro st _ h; simp [List.find?] at h
  | cons e rest ih =>
      intro st hst h
      by_cases hs : isSettling e = true
      · rw [List.find?_cons_of_pos _ hs] at h
        cases Option.some.inj h
        rw [List.foldl_cons]
        refine ⟨{ passed := code == some 0, exitCode := code,
                  stdout := st.stdout, stderr := st.stderr,
                  durationSecs := st.clock + 1 }, ?_, rfl, rfl⟩
        refine foldl_preserves_settled t rest _ _ ?_
        simp [vstep, attemptSettle, hst]
      · have hs' : isSettling e = false := by
          revert hs; cases isSettling e <;> simp
        rw [List.find?_cons_of_neg _ (by simp [hs'])] at h
        rw [List.foldl_cons]
        exact ih _ (by rw [vstep_not_settling t st e hs']; exact hst) h

lemma no_timer_when_disarmed :
    ∀ (l : List VEvent) (cl : Bool),
      admissibleFrom false cl l = true → VEvent.timerFire ∉ l := by
  intro l
  induction l with
  | nil => intro cl _; simp
  | cons e rest ih =>
      intro cl h
      cases e with
      | timerFire => simp [admissibleFrom] at h
      | close c =>
          simp only [admissibleFrom, Bool.and_eq_true] at h
          simp only [List.mem_cons]
          rintro (hc | hc)
          · exact VEvent.noConfusion hc
          · exact ih true h.2 hc
      | dataOut s =>
          simp only [admissibleFrom] at h
          simp only [List.mem_cons]
          rintro (hc | hc)
          · exact VEvent.noConfusion hc
          · exact ih cl h hc
      | dataErr s =>
          simp only [admissibleFrom] at h
          simp only [List.mem_cons]
          rintro (hc | hc)
          · exact VEvent.noConfusion hc
          · exact ih cl h hc
      | errEvent a b =>
          simp only [admissibleFrom] at h
          simp only [List.mem_cons]
          rintro (hc | hc)
          · exact VEvent.noConfusion hc
          · exact ih cl h hc
      | internalTimeout =>
          simp only [admissibleFrom] at h
          simp only [List.mem_cons]
          rintro (hc | hc)
          · exact VEvent.noConfusion hc
          · exact ih cl h hc

lemma close_disarms_timer :
    ∀ (a : List VEvent) (armed cl : Bool) (b : List VEvent) (c : Option Int),
      admissibleFrom armed cl (a ++ VEvent.close c :: b) = true →
      VEvent.timerFire ∉ b := by
  intro a
  induction a with
  | nil =>
      intro armed cl b c h
      simp only [List.nil_append, admissibleFrom, Bool.and_eq_true] at h
      exact no_timer_when_disarmed b true h.2
  | cons e rest ih =>
      intro armed cl b c h
      rw [List.cons_append] at h
      cases e with
      | timerFire =>
          simp only [admissibleFrom, Bool.and_eq_true] at h
          exact ih false cl b c h.2
      | close c' =>
          simp only [admissibleFrom, Bool.and_eq_true] at h
          exact ih false true b c h.2
      | dataOut s =>
          simp only [admissibleFrom] at h
          exact ih armed cl b c h
      | dataErr s =>
          simp only [admissibleFrom] at h
          exact ih armed cl b c h
      | errEvent x y =>
          simp only [admissibleFrom] at h
          exact ih armed cl b c h
      | internalTimeout =>
          simp only [admissibleFrom] at h
          exact ih armed cl b c h

/-- C1: for a task whose verification command runs past its declared timeout —
that is, a run whose first settling event is the deadline mechanism (the
explicit graceful-kill timer, or an `ETIMEDOUT` process error) rather than a
process exit — `Verifier.verify` fails with a `VerificationError` whose
message names the configured timeout value, and never returns a
`VerificationResult` for that invocation. -/
theorem verify_timeout_rejects (cmd : String) (t : Nat) (events : List VEvent)
    (hcmd : parseCommandParts cmd ≠ [])
    (hfirst : events.find? isSettling = some VEvent.timerFire ∨
      ∃ m, events.find? isSettling = some (VEvent.errEvent "ETIMEDOUT" m)) :
    (verify cmd t events).1 = some (Except.error ⟨timeoutMessage t⟩) ∧
    (∀ r : VerificationResult, (verify cmd t events).1 ≠ some (Except.ok r)) ∧
    ∃ a b, timeoutMessage t = a ++ toString t ++ b := by
  have hset := settles_timeout_first t events initPromiseState rfl hfirst
  have hv : (verify cmd t events).1 = (runVerify t events).settled := by
    simp [verify, hcmd]
  refine ⟨by rw [hv]; exact hset, ?_,
    "Verification command timed out after ", " seconds", rfl⟩
  intro r hr
  have hset' : (runVerify t events).settled =
      some (Except.error ⟨timeoutMessage t⟩) := hset
  rw [hv, hset'] at hr
  exact Except.noConfusion (Option.some.inj hr)

theorem verify_timeout_rejects_witness :
    parseCommandParts "sleep 60" ≠ [] ∧
    (verify "sleep 60" 5 [VEvent.timerFire]).1 =
      some (Except.error ⟨timeoutMessage 5⟩) := by
  refine ⟨by decide, ?_⟩
  exact (verify_timeout_rejects "sleep 60" 5 [VEvent.timerFire] (by decide)
    (Or.inl rfl)).1

/-- C2 counterexample: the claim says that once one racing path has settled
the result, the other path's pending timer or handler is cancelled so that it
cannot fire afterward. On the admissible trace where the explicit timer fires
first and the killed process's `close` event arrives afterward, the `close`
handler is not cancelled: it still fires and makes a second `resolve` call on
the already-settled promise (two settle attempts), so the claimed cancellation
does not hold in the timer-first direction. -/
theorem close_handler_fires_after_timer_settles :
    admissible [VEvent.timerFire, VEvent.close none] = true ∧
    (runVerify 5 [VEvent.timerFire]).settled =
      some (Except.error ⟨timeoutMessage 5⟩) ∧
    (runVerify 5 [VEvent.timerFire, VEvent.close none]).settleAttempts = 2 := by
  exact ⟨rfl, rfl, rfl⟩

/-- C2 amended: exactly one settlement takes effect — whichever racing path
settles first is final, and later handler firings cannot change the settled
result (JavaScript promise semantics ignore later `resolve`/`reject` calls);
moreover, in the process-exit-first direction the cancellation does hold: the
`close` handler clears the pending explicit timer, so after a `close` event
the timer can no longer fire in any admissible trace. -/
theorem verify_first_settlement_final (t : Nat) (pre post : List VEvent)
    (x : Except VerificationError VerificationResult)
    (h : (runVerify t pre).settled = some x) :
    (runVerify t (pre ++ post)).settled = some x ∧
    ∀ (a b : List VEvent) (c : Option Int),
      admissible (a ++ VEvent.close c :: b) = true → VEvent.timerFire ∉ b := by
  constructor
  · rw [runVerify, List.foldl_append]
    exact foldl_preserves_settled t post _ x h
  · intro a b c hadm
    exact close_disarms_timer a true false b c hadm

theorem verify_first_settlement_final_witness :
    (runVerify 5 [VEvent.timerFire]).settled =
      some (Except.error ⟨timeoutMessage 5⟩) ∧
    (runVerify 5 ([VEvent.timerFire] ++ [VEvent.close none])).settled =
      some (Except.error ⟨timeoutMessage 5⟩) := by
  refine ⟨rfl, ?_⟩
  exact (verify_first_settlement_final 5 [VEvent.timerFire] [VEvent.close none]
    (Except.error ⟨timeoutMessage 5⟩) rfl).1

/-- C4: when the verification process exits before the deadline (its `close`
event is the first settling event), `verify` returns a `VerificationResult`
whose `passed` flag is true exactly when the exit code is `0`, with the exit
code recorded verbatim. -/
theorem verify_exit_code (cmd : String) (t : Nat) (events : List VEvent)
    (code : Option Int)
    (hcmd : parseCommandParts cmd ≠ [])
    (hfirst : events.find? isSettling = some (VEvent.close code)) :
    ∃ r : VerificationResult,
      (verify cmd t events).1 = some (Except.ok r) ∧
      r.exitCode = code ∧ (r.passed = true ↔ code = some 0) := by
  obtain ⟨r, hr, hcode, hpass⟩ :=
    settles_close_first t code events initPromiseState rfl hfirst
  have hv : (verify cmd t events).1 = (runVerify t events).settled := by
    simp [verify, hcmd]
  refine ⟨r, by rw [hv]; exact hr, hcode, ?_⟩
  rw [hpass]
  exact beq_iff_eq

theorem verify_exit_code_witness :
    (parseCommandParts "python tests/verify_os_version.py" ≠ [] ∧
      ∃ r : VerificationResult,
        (verify "python tests/verify_os_version.py" 30
          [VEvent.dataOut "ok\n", VEvent.close (some 0)]).1 =
          some (Except.ok r) ∧
        r.exitCode = some 0 ∧ (r.passed = true ↔ (some 0 : Option Int) = some 0)) ∧
    ∃ r : VerificationResult,
      (verify "python tests/verify_os_version.py" 30 [VEvent.close (some 2)]).1 =
        some (Except.ok r) ∧
      r.exitCode = some 2 ∧ (r.passed = true ↔ (some 2 : Option Int) = some 0) := by
  refine ⟨⟨by decide, ?_⟩, ?_⟩
  · exact verify_exit_code "python tests/verify_os_version.py" 30
      [VEvent.dataOut "ok\n", VEvent.close (some 0)] (some 0) (by decide) rfl
  · exact verify_exit_code "python tests/verify_os_version.py" 30
      [VEvent.close (some 2)] (some 2) (by decide) rfl

/-! ## Agent session adapter lemmas and claim theorems -/

lemma captureMetrics_error_of_prefix (msg : Option String) :
    ∀ (pre rest : List OEvent) (m : Metrics),
      (∀ e ∈ pre, isTerminalEvent e = false) →
      captureMetrics (pre ++ OEvent.sessionError msg :: rest) m =
        Except.error ⟨"Session error: " ++ sessionErrorMessage msg⟩ := by
  intro pre
  induction pre with
  | nil => intro rest m _; rfl
  | cons e p ih =>
      intro rest m hpre
      cases e with
      | messageUpdated i ps =>
          exact ih rest (handleMessageUpdate i ps m)
            (fun x hx => hpre x (List.mem_cons_of_mem _ hx))
      | sessionIdle =>
          exact absurd (hpre _ (List.mem_cons_self _ _)) (by simp [isTerminalEvent])
      | sessionError m' =>
          exact absurd (hpre _ (List.mem_cons_self _ _)) (by simp [isTerminalEvent])
      | otherEvent tag =>
          exact ih rest m (fun x hx => hpre x (List.mem_cons_of_mem _ hx))

lemma captureMetrics_ok_of_no_terminal :
    ∀ (events : List OEvent) (m : Metrics),
      (∀ e ∈ events, isTerminalEvent e = false) →
      ∃ mo : Metrics, captureMetrics events m = Except.ok mo := by
  intro events
  induction events with
  | nil => intro m _; exact ⟨m, rfl⟩
  | cons e rest ih =>
      intro m h
      cases e with
      | messageUpdated i ps =>
          exact ih (handleMessageUpdate i ps m)
            (fun x hx => h x (List.mem_cons_of_mem _ hx))
      | sessionIdle =>
          exact absurd (h _ (List.mem_cons_self _ _)) (by simp [isTerminalEvent])
      | sessionError m' =>
          exact absurd (h _ (List.mem_cons_self _ _)) (by simp [isTerminalEvent])
      | otherEvent tag =>
          exact ih m (fun x hx => h x (List.mem_cons_of_mem _ hx))

/-- C3: a `message.updated` event attributable to the assistant's own turn
increments the iteration count by exactly one, adds the reported input and
output token deltas and the cost delta to the running totals, and appends the
textual payload fragments to the output list in arrival order; a
`message.updated` event not attributable to the assistant's turn, and any
unrecognized event class, leave the metrics accumulator unchanged, and the
stream is consumed one event at a time in arrival order. -/
theorem message_update_metrics (msg : MsgInfo) (parts : List MsgPart)
    (m : Metrics) (info : Option MsgInfo) (rest : List OEvent) (tag : String)
    (hrole : msg.role = "assistant")
    (hother : ∀ mi, info = some mi → mi.role ≠ "assistant") :
    (handleMessageUpdate (some msg) parts m).iterations = m.iterations + 1 ∧
    (handleMessageUpdate (some msg) parts m).inputTokens =
      m.inputTokens + reportedInput msg ∧
    (handleMessageUpdate (some msg) parts m).outputTokens =
      m.outputTokens + reportedOutput msg ∧
    (handleMessageUpdate (some msg) parts m).cost = m.cost + reportedCost msg ∧
    (handleMessageUpdate (some msg) parts m).output =
      m.output ++ parts.filterMap partText ∧
    captureMetrics (OEvent.messageUpdated info parts :: rest) m =
      captureMetrics rest (handleMessageUpdate info parts m) ∧
    handleMessageUpdate info parts m = m ∧
    captureMetrics (OEvent.otherEvent tag :: rest) m = captureMetrics rest m := by
  refine ⟨?_, ?_, ?_, ?_, ?_, rfl, ?_, rfl⟩
  · simp [handleMessageUpdate, hrole]
  · simp [handleMessageUpdate, hrole, reportedInput]
  · simp [handleMessageUpdate, hrole, reportedOutput]
  · rcases hc : msg.cost with _ | c
    · simp [handleMessageUpdate, hrole, reportedCost, hc]
    · rcases eq_or_ne c 0 with h0 | h0
      · simp [handleMessageUpdate, hrole, reportedCost, hc, h0]
      · simp [handleMessageUpdate, hrole, reportedCost, hc, h0]
  · simp [handleMessageUpdate, hrole]
  · rcases info with _ | mi
    · rfl
    · have : mi.role ≠ "assistant" := hother mi rfl
      simp [handleMessageUpdate, this]

theorem message_update_metrics_witness :
    (MsgInfo.mk "assistant" (some ⟨some 120, some 40⟩) (some 1)).role =
      "assistant" ∧
    (handleMessageUpdate (some ⟨"assistant", some ⟨some 120, some 40⟩, some 1⟩)
        [⟨"text", some "done"⟩, ⟨"tool", some "x"⟩] initMetrics).iterations =
      initMetrics.iterations + 1 ∧
    (handleMessageUpdate (some ⟨"assistant", some ⟨some 120, some 40⟩, some 1⟩)
        [⟨"text", some "done"⟩, ⟨"tool", some "x"⟩] initMetrics).inputTokens =
      initMetrics.inputTokens +
        reportedInput ⟨"assistant", some ⟨some 120, some 40⟩, some 1⟩ ∧
    (handleMessageUpdate (some ⟨"assistant", some ⟨some 120, some 40⟩, some 1⟩)
        [⟨"text", some "done"⟩, ⟨"tool", some "x"⟩] initMetrics).output =
      initMetrics.output ++
        ([⟨"text", some "done"⟩, ⟨"tool", some "x"⟩] : List MsgPart).filterMap
          partText ∧
    handleMessageUpdate (some ⟨"user", none, none⟩)
        [⟨"text", some "done"⟩, ⟨"tool", some "x"⟩] initMetrics = initMetrics := by
  have h := message_update_metrics ⟨"assistant", some ⟨some 120, some 40⟩, some 1⟩
    [⟨"text", some "done"⟩, ⟨"tool", some "x"⟩] initMetrics
    (some ⟨"user", none, none⟩) [] "server.connected" rfl
    (by intro mi hmi; cases hmi; decide)
  exact ⟨rfl, h.1, h.2.1, h.2.2.2.2.1, h.2.2.2.2.2.2.1⟩

/-- C5: the adapter selects the read-only/planning agent type exactly when
the task's permission spec grants neither write nor bash permission, and the
full build agent type otherwise. -/
theorem selectAgentType_plan_iff (task : Task) :
    (selectAgentType task = "plan" ↔
      task.permissions.write = false ∧ task.permissions.bash = false) ∧
    (selectAgentType task = "build" ↔
      (task.permissions.write = true ∨ task.permissions.bash = true)) := by
  cases hw : task.permissions.write <;> cases hb : task.permissions.bash <;>
    simp [selectAgentType, hw, hb]

/-- C6: when the event stream delivers a `session.error` event (after any
prefix of non-terminating events), the stream consumption fails with an
`AgentError` carrying that event's error message, and `runTask`/`execute`
re-raise it (wrapped in the `OpenCode execution failed` `AgentError`, whose
message still carries the event's message) rather than returning an
`AgentResult`. -/
theorem session_error_propagates (cfg : ModelConfig) (d : Nat)
    (pre rest : List OEvent) (msg : Option String)
    (hpre : ∀ e ∈ pre, isTerminalEvent e = false) :
    captureMetrics (pre ++ OEvent.sessionError msg :: rest) initMetrics =
      Except.error ⟨"Session error: " ++ sessionErrorMessage msg⟩ ∧
    runTask cfg none (pre ++ OEvent.sessionError msg :: rest) d =
      Except.error ⟨"OpenCode execution failed: " ++
        agentErrorToString ⟨"Session error: " ++ sessionErrorMessage msg⟩⟩ ∧
    (∀ r : AgentResult,
      runTask cfg none (pre ++ OEvent.sessionError msg :: rest) d ≠
        Except.ok r) ∧
    (execute cfg none (pre ++ OEvent.sessionError msg :: rest) d false).2 =
      runTask cfg none (pre ++ OEvent.sessionError msg :: rest) d := by
  have hcap := captureMetrics_error_of_prefix msg pre rest initMetrics hpre
  refine ⟨hcap, ?_, ?_, rfl⟩
  · simp [runTask, hcap]
  · intro r hr
    rw [runTask, hcap] at hr
    exact Except.noConfusion hr

theorem session_error_propagates_witness :
    captureMetrics [OEvent.sessionError (some "model unavailable")] initMetrics =
      Except.error ⟨"Session error: " ++
        sessionErrorMessage (some "model unavailable")⟩ ∧
    runTask ⟨"anthropic", "claude-sonnet-4"⟩ none
        [OEvent.sessionError (some "model unavailable")] 0 =
      Except.error ⟨"OpenCode execution failed: " ++ agentErrorToString
        ⟨"Session error: " ++ sessionErrorMessage (some "model unavailable")⟩⟩ := by
  have h := session_error_propagates ⟨"anthropic", "claude-sonnet-4"⟩ 0
    [] [] (some "model unavailable") (by intro e he; cases he)
  exact ⟨h.1, h.2.1⟩

/-- C8: `execute` releases the session handle (closes the embedded server) on
every exit path — the `finally` block puts `serverClose` in the action log
last, before the outcome is returned or re-raised, whether the body succeeded
or failed, and a failure of the close itself does not change the outcome. -/
theorem execute_closes_server (cfg : ModelConfig) (promptError : Option String)
    (events : List OEvent) (d : Nat) (closeFails : Bool) :
    ExecAction.serverClose ∈ (execute cfg promptError events d closeFails).1 ∧
    (execute cfg promptError events d closeFails).1.getLast? =
      some ExecAction.serverClose ∧
    (execute cfg promptError events d closeFails).2 =
      runTask cfg promptError events d ∧
    (execute cfg promptError events d true).2 =
      (execute cfg promptError events d false).2 := by
  refine ⟨?_, rfl, rfl, rfl⟩
  simp [execute]

/-- C9: if the event transport ends (end-of-stream) without ever delivering
an idle or error event, the stream fold returns normally and `runTask`
returns an `AgentResult` with `success = true` carrying whatever metrics were
accumulated, rather than failing. -/
theorem stream_end_success (cfg : ModelConfig) (d : Nat) (events : List OEvent)
    (h : ∀ e ∈ events, isTerminalEvent e = false) :
    ∃ mo : Metrics,
      captureMetrics events initMetrics = Except.ok mo ∧
      runTask cfg none events d = Except.ok (mkAgentResult mo cfg d) ∧
      (mkAgentResult mo cfg d).success = true := by
  obtain ⟨mo, hmo⟩ := captureMetrics_ok_of_no_terminal events initMetrics h
  exact ⟨mo, hmo, by simp [runTask, hmo], rfl⟩

theorem stream_end_success_witness :
    ∃ mo : Metrics,
      captureMetrics [OEvent.otherEvent "server.connected"] initMetrics =
        Except.ok mo ∧
      runTask ⟨"anthropic", "claude-sonnet-4"⟩ none
          [OEvent.otherEvent "server.connected"] 0 =
        Except.ok (mkAgentResult mo ⟨"anthropic", "claude-sonnet-4"⟩ 0) ∧
      (mkAgentResult mo ⟨"anthropic", "claude-sonnet-4"⟩ 0).success = true := by
  exact stream_end_success ⟨"anthropic", "claude-sonnet-4"⟩ 0
    [OEvent.otherEvent "server.connected"] (by decide)

/-! ## Tokenizer lemmas and claim theorem (C7) -/

lemma contains_quote_append (l : List Char) :
    (l ++ ['"']).contains '"' = true := by
  induction l with
  | nil => rfl
  | cons c rest ih => simp [List.contains_cons, ih]

lemma scanAux_inQuote (l : List Char) :
    ∀ (cur : List Char), (∀ c ∈ l, c ≠ '"') →
      scanAux (l ++ ['"']) cur true = [String.mk (cur ++ l ++ ['"'])] := by
  induction l with
  | nil =>
      intro cur _
      cases cur <;> simp [scanAux]
  | cons c rest ih =>
      intro cur h
      have hc : c ≠ '"' := h c (List.mem_cons_self _ _)
      rw [List.cons_append]
      show (if c = '"' then scanAux (rest ++ ['"']) (cur ++ ['"']) false
            else scanAux (rest ++ ['"']) (cur ++ [c]) true) = _
      rw [if_neg hc,
        ih (cur ++ [c]) (fun x hx => h x (List.mem_cons_of_mem _ hx))]
      simp [List.append_assoc]

lemma quoted_string_data (s : String) :
    ("\"" ++ s ++ "\"").data = '"' :: (s.data ++ ['"']) := by
  simp [String.data_append]

lemma parse_quoted (s : String) (h : ∀ c ∈ s.data, c ≠ '"') :
    parseCommandParts ("\"" ++ s ++ "\"") = ["\"" ++ s ++ "\""] := by
  rw [parseCommandParts, quoted_string_data]
  show (if ('"' : Char) = '"' then
          if (s.data ++ ['"']).contains '"' then
            scanAux (s.data ++ ['"']) ([] ++ ['"']) true
          else if ([] : List Char).isEmpty then scanAux (s.data ++ ['"']) [] false
          else String.mk [] :: scanAux (s.data ++ ['"']) [] false
        else if isJsSpace '"' then
          if ([] : List Char).isEmpty then scanAux (s.data ++ ['"']) [] false
          else String.mk [] :: scanAux (s.data ++ ['"']) [] false
        else scanAux (s.data ++ ['"']) ([] ++ ['"']) false) = _
  rw [if_pos rfl, if_pos (contains_quote_append s.data),
    List.nil_append, scanAux_inQuote s.data ['"'] h]
  rw [show ("\"" ++ s ++ "\"" : String) = String.mk ('"' :: (s.data ++ ['"'])) by
    apply String.ext
    rw [quoted_string_data]]
  simp

/-- C7: a task whose verification command tokenizes to an empty token list
makes `Verifier.verify` fail with a `VerificationError` before any child
process is spawned (the second component of `verify` records whether a
process was spawned); and the tokenization honors double-quoted segments as
single tokens, with the surrounding quotes stripped from the program/argument
actually used. -/
theorem empty_command_and_quoting :
    (∀ (cmd : String) (t : Nat) (events : List VEvent),
        parseCommandParts cmd = [] →
        verify cmd t events =
          (some (Except.error ⟨"Empty verification command"⟩), false)) ∧
    (∀ s : String, (∀ c ∈ s.data, c ≠ '"') →
        parseCommandParts ("\"" ++ s ++ "\"") = ["\"" ++ s ++ "\""] ∧
        parsedCommand ("\"" ++ s ++ "\"") = some (s, [])) := by
  constructor
  · intro cmd t events hcmd
    simp [verify, hcmd]
  · intro s h
    have hp := parse_quoted s h
    refine ⟨hp, ?_⟩
    rw [parsedCommand, hp]
    have hstrip : stripQuotes ("\"" ++ s ++ "\"") = s := by
      apply String.ext
      rw [stripQuotes, quoted_string_data]
      show (('"' :: (s.data ++ ['"'])).filter (fun c => c != '"')) = s.data
      have h1 : s.data.filter (fun c => c != '"') = s.data :=
        List.filter_eq_self.mpr (fun c hc => bne_iff_ne.mpr (h c hc))
      have h2 : (['"'] : List Char).filter (fun c => c != '"') = [] := by decide
      have h3 : (('"' : Char) != '"') = false := by decide
      simp only [List.filter_cons, List.filter_append, h1, h2, h3,
        Bool.false_eq_true, if_false, List.append_nil]
    show some (stripQuotes ("\"" ++ s ++ "\""), List.map stripQuotes []) =
      some (s, [])
    rw [hstrip]
    simp

theorem empty_command_and_quoting_witness :
    parseCommandParts "   " = [] ∧
    verify "   " 30 [] =
      (some (Except.error ⟨"Empty verification command"⟩), false) ∧
    parseCommandParts "\"hello world\"" = ["\"hello world\""] ∧
    parsedCommand "\"hello world\"" = some ("hello world", []) := by
  refine ⟨by decide, empty_command_and_quoting.1 "   " 30 [] (by decide),
    (empty_command_and_quoting.2 "hello world" (by decide)).1,
    (empty_command_and_quoting.2 "hello world" (by decide)).2⟩

/-! ## Collector lemma and claim theorem (C10) -/

lemma collectStep_id (acc : List BenchmarkResult)
    (file : String × Except String BenchmarkResult) :
    collectStep acc file = acc := by
  rcases file with ⟨name, r⟩
  cases r with
  | error e => rfl
  | ok v =>
      show (match jsArrayMethod "append" with
            | some app => app acc v
            | none => acc) = acc
      rw [show jsArrayMethod "append" = none from rfl]

lemma foldl_collectStep (files : List (String × Except String BenchmarkResult)) :
    ∀ acc, files.foldl collectStep acc = acc := by
  induction files with
  | nil => intro acc; rfl
  | cons f rest ih =>
      intro acc
      rw [List.foldl_cons, collectStep_id]
      exact ih acc

/-- C10: `collectResults` returns the empty list for every results directory:
each successfully read file is passed to `results.append`, which is not a
JavaScript array method (the lookup yields `undefined`), so the call throws a
`TypeError` that the per-file `catch` swallows, and no file is ever added to
the returned list. -/
theorem collectResults_always_empty :
    jsArrayMethod "append" = none ∧
    ∀ files, collectResults files = [] := by
  refine ⟨rfl, ?_⟩
  intro files
  rw [collectResults]
  rw [foldl_collectStep]
  rfl

end AgentBench
